import Mathlib

set_option maxHeartbeats 1000000
set_option maxRecDepth 4000

namespace SnowProxy

/-! JavaScript string primitives used by the proxy sources: the whitespace
class shared by the regex atom backslash-s and by String.prototype.trim,
and the trim operation itself. -/

def jsIsWhitespace (c : Char) : Bool :=
  let n := c.toNat
  (9 ≤ n && n ≤ 13) || n == 32 || n == 160 || n == 5760 ||
  (8192 ≤ n && n ≤ 8202) || n == 8232 || n == 8233 || n == 8239 ||
  n == 8287 || n == 12288 || n == 65279

def jsTrim (s : String) : String :=
  String.mk (((s.data.dropWhile jsIsWhitespace).reverse.dropWhile jsIsWhitespace).reverse)

/-! A small regular-expression engine (Brzozowski derivatives) giving the
semantics of the JavaScript RegExp.test calls made by the sources.  Character
classes are the ones occurring in the source patterns. -/

/-- Character classes occurring in the source regexes: whitespace, the dot
atom (without the s flag it excludes line terminators), a case-insensitive
literal (the i flag), the object-name class, and the implicit any-character
padding used to express unanchored search. -/
inductive CC where
  | ws
  | dot
  | lit (c : Char)
  | objName (backtick : Bool)
  | any
deriving DecidableEq

def ccMatch : CC → Char → Bool
  | .ws, c => jsIsWhitespace c
  | .dot, c => !(c == '\n' || c == '\r' || c.toNat == 8232 || c.toNat == 8233)
  | .lit l, c => c.toLower == l.toLower
  | .objName bt, c =>
      ('a' ≤ c && c ≤ 'z') || ('A' ≤ c && c ≤ 'Z') || ('0' ≤ c && c ≤ '9') ||
      c == '_' || c == '.' || c == Char.ofNat 34 || (bt && c == Char.ofNat 96)
  | .any, _ => true

inductive RE where
  | fail
  | eps
  | cls (cc : CC)
  | seq (a b : RE)
  | alt (a b : RE)
  | star (a : RE)
deriving DecidableEq

def RE.nullable : RE → Bool
  | .fail => false
  | .eps => true
  | .cls _ => false
  | .seq a b => a.nullable && b.nullable
  | .alt a b => a.nullable || b.nullable
  | .star _ => true

/-- Smart sequencing, keeping derivative terms small. -/
def RE.mseq : RE → RE → RE
  | .fail, _ => .fail
  | .eps, b => b
  | _, .fail => .fail
  | a, .eps => a
  | a, b => .seq a b

/-- Smart alternation, keeping derivative terms small. -/
def RE.malt : RE → RE → RE
  | .fail, b => b
  | a, .fail => a
  | a, b => if a == b then a else .alt a b

def RE.deriv : RE → Char → RE
  | .fail, _ => .fail
  | .eps, _ => .fail
  | .cls cc, c => if ccMatch cc c then .eps else .fail
  | .seq a b, c =>
      if a.nullable then RE.malt (RE.mseq (a.deriv c) b) (b.deriv c)
      else RE.mseq (a.deriv c) b
  | .alt a b, c => RE.malt (a.deriv c) (b.deriv c)
  | .star a, c => RE.mseq (a.deriv c) (.star a)

def RE.matchList (r : RE) (cs : List Char) : Bool :=
  (cs.foldl RE.deriv r).nullable

/-- A compiled JavaScript regex as the sources use them: the source text,
whether the pattern is anchored at the start (a leading caret) or at the end
(a trailing dollar), and the body as an `RE`.  All patterns in the sources
carry the i flag, which is baked into the literal character class. -/
structure JSRegex where
  source : String
  anchoredStart : Bool
  anchoredEnd : Bool
  re : RE
deriving DecidableEq

def JSRegex.core (p : JSRegex) : RE :=
  if p.anchoredEnd then p.re else RE.seq p.re (RE.star (RE.cls CC.any))

/-- RegExp.prototype.test: an unanchored pattern may match at any position. -/
def JSRegex.test (p : JSRegex) (s : String) : Bool :=
  RE.matchList (if p.anchoredStart then p.core
                else RE.seq (RE.star (RE.cls CC.any)) p.core) s.data

/-- Whether the pattern matches starting at position 0 of the string. -/
def JSRegex.testAtStart (p : JSRegex) (s : String) : Bool :=
  RE.matchList p.core s.data

theorem JSRegex.test_of_anchored (p : JSRegex) (h : p.anchoredStart = true) (s : String) :
    p.test s = p.testAtStart s := by
  simp [JSRegex.test, JSRegex.testAtStart, h]

def ciStr (w : String) : RE :=
  w.data.foldr (fun c r => RE.seq (RE.cls (CC.lit c)) r) RE.eps

def wsPlus : RE := RE.seq (RE.cls CC.ws) (RE.star (RE.cls CC.ws))

def wsStar : RE := RE.star (RE.cls CC.ws)

def altList : List RE → RE
  | [] => RE.fail
  | [r] => r
  | r :: rest => RE.alt r (altList rest)

def reSeq : List RE → RE
  | [] => RE.eps
  | [r] => r
  | r :: rest => RE.seq r (reSeq rest)

/-! The query classifier (src/src/mcp/metadata-proxy/query-classifier.ts). -/

def scalarPattern1 : JSRegex :=
  { source := "^\\s*SELECT\\s+(COUNT|SUM|AVG|MIN|MAX|COUNT_DISTINCT)\\s*\\(",
    anchoredStart := true, anchoredEnd := false,
    re := reSeq [wsStar, ciStr "SELECT", wsPlus,
      altList [ciStr "COUNT", ciStr "SUM", ciStr "AVG", ciStr "MIN", ciStr "MAX",
        ciStr "COUNT_DISTINCT"],
      wsStar, RE.cls (CC.lit '(')] }

def scalarPattern2 : JSRegex :=
  { source := "^\\s*SELECT\\s+(CURRENT_|SESSION_|SYSTEM\\$)",
    anchoredStart := true, anchoredEnd := false,
    re := reSeq [wsStar, ciStr "SELECT", wsPlus,
      altList [ciStr "CURRENT_", ciStr "SESSION_", ciStr "SYSTEM$"]] }

def SCALAR_PATTERNS : List JSRegex := [scalarPattern1, scalarPattern2]

def metadataPattern1 : JSRegex :=
  { source := "^\\s*SELECT\\s+.*\\s+FROM\\s+INFORMATION_SCHEMA",
    anchoredStart := true, anchoredEnd := false,
    re := reSeq [wsStar, ciStr "SELECT", wsPlus, RE.star (RE.cls CC.dot), wsPlus,
      ciStr "FROM", wsPlus, ciStr "INFORMATION_SCHEMA"] }

def metadataPattern2 : JSRegex :=
  { source := "^\\s*SELECT\\s+.*\\s+FROM\\s+DATA_",
    anchoredStart := true, anchoredEnd := false,
    re := reSeq [wsStar, ciStr "SELECT", wsPlus, RE.star (RE.cls CC.dot), wsPlus,
      ciStr "FROM", wsPlus, ciStr "DATA_"] }

def metadataPattern3 : JSRegex :=
  { source := "DESCRIBE\\s+", anchoredStart := false, anchoredEnd := false,
    re := RE.seq (ciStr "DESCRIBE") wsPlus }

def metadataPattern4 : JSRegex :=
  { source := "SHOW\\s+", anchoredStart := false, anchoredEnd := false,
    re := RE.seq (ciStr "SHOW") wsPlus }

def metadataPattern5 : JSRegex :=
  { source := "LIST\\s+", anchoredStart := false, anchoredEnd := false,
    re := RE.seq (ciStr "LIST") wsPlus }

def metadataPattern6 : JSRegex :=
  { source := "^DESC(RIPE)?\\s+", anchoredStart := true, anchoredEnd := false,
    re := reSeq [ciStr "DESC", RE.alt (ciStr "RIPE") RE.eps, wsPlus] }

def metadataPattern7 : JSRegex :=
  { source := "GET_DDL\\s*\\(", anchoredStart := false, anchoredEnd := false,
    re := reSeq [ciStr "GET_DDL", wsStar, RE.cls (CC.lit '(')] }

def metadataPattern8 : JSRegex :=
  { source := "GET\\s+DDL", anchoredStart := false, anchoredEnd := false,
    re := reSeq [ciStr "GET", wsPlus, ciStr "DDL"] }

def METADATA_PATTERNS : List JSRegex :=
  [metadataPattern1, metadataPattern2, metadataPattern3, metadataPattern4,
   metadataPattern5, metadataPattern6, metadataPattern7, metadataPattern8]

inductive QueryType where
  | metadata
  | scalar
  | data
deriving DecidableEq

structure QueryClassification where
  type : QueryType
  reason : String
deriving DecidableEq

def classifyQuery (query : String) : QueryClassification :=
  let trimmedQuery := jsTrim query
  match METADATA_PATTERNS.find? (fun p => p.test trimmedQuery) with
  | some p =>
      { type := .metadata, reason := "Query matches metadata pattern: " ++ p.source }
  | none =>
      match SCALAR_PATTERNS.find? (fun p => p.test trimmedQuery) with
      | some p =>
          { type := .scalar, reason := "Query matches scalar pattern: " ++ p.source }
      | none =>
          { type := .data,
            reason := "Query does not match any known patterns, treating as data query" }

/-! The exclusion checker (src/src/mcp/metadata-proxy/exclusion-checker.ts).
Configured patterns are regex source strings compiled with the i flag
(src/unnamed/part_004, loadConfig), so every `JSRegex` here is
case-insensitive by construction of its literal atoms. -/

structure ExclusionResult where
  isExcluded : Bool
  matchedPattern : Option String
deriving DecidableEq

/-- String.prototype.toUpperCase restricted to the ASCII range. -/
def jsToUpperCase (s : String) : String := String.mk (s.data.map Char.toUpper)

def checkExclusion (patterns : List JSRegex) (objectTypes : List String)
    (objectName : String) : ExclusionResult :=
  match patterns.find? (fun p => p.test objectName) with
  | some p => { isExcluded := true, matchedPattern := some p.source }
  | none =>
      if objectTypes.contains (jsToUpperCase objectName) then
        { isExcluded := true, matchedPattern := some ("objectType:" ++ objectName) }
      else
        { isExcluded := false, matchedPattern := none }

/-- The pattern source "^PROD_" compiled with the i flag. -/
def patternPROD : JSRegex :=
  { source := "^PROD_", anchoredStart := true, anchoredEnd := false,
    re := ciStr "PROD_" }

/-- The pattern source "_BACKUP$" compiled with the i flag. -/
def patternBACKUP : JSRegex :=
  { source := "_BACKUP$", anchoredStart := false, anchoredEnd := true,
    re := ciStr "_BACKUP" }

/-! The object-name extractor (src/src/mcp/metadata-proxy/exclusion-checker.ts,
extractObjectNames).  Each source regex has the shape
KEYWORD(S separated by whitespace) whitespace CAPTURE, where the capture is a
maximal nonempty run of object-name characters; matchAll scans the string
left to right and resumes after each match.  Since neither whitespace nor the
keyword letters overlap the capture class in a way that needs backtracking,
this scanning model is exactly the JS matchAll behavior for these regexes. -/

def objNameChar (bt : Bool) (c : Char) : Bool := ccMatch (CC.objName bt) c

def takeCIWord : List Char → List Char → Option (List Char)
  | [], cs => some cs
  | _ :: _, [] => none
  | w :: ws, c :: cs => if c.toLower == w.toLower then takeCIWord ws cs else none

def takeWsPlus : List Char → Option (List Char)
  | [] => none
  | c :: cs => if jsIsWhitespace c then some (cs.dropWhile jsIsWhitespace) else none

def takeNameRun (bt : Bool) (cs : List Char) : Option (String × List Char) :=
  let run := cs.takeWhile (objNameChar bt)
  if run.isEmpty then none else some (String.mk run, cs.drop run.length)

def matchWordsFrom : List String → List Char → Option (List Char)
  | [], cs => some cs
  | w :: ws, cs =>
      match takeWsPlus cs with
      | none => none
      | some cs1 =>
          match takeCIWord w.data cs1 with
          | none => none
          | some cs2 => matchWordsFrom ws cs2

def matchClauseAt (alts words : List String) (bt : Bool) (cs : List Char) :
    Option (String × List Char) :=
  match alts.findSome? (fun a => takeCIWord a.data cs) with
  | none => none
  | some cs1 =>
      match matchWordsFrom words cs1 with
      | none => none
      | some cs2 =>
          match takeWsPlus cs2 with
          | none => none
          | some cs3 => takeNameRun bt cs3

def scanClauseAux (alts words : List String) (bt : Bool) : Nat → List Char → List String
  | 0, _ => []
  | _, [] => []
  | fuel + 1, c :: rest =>
      match matchClauseAt alts words bt (c :: rest) with
      | some (nm, remainder) => nm :: scanClauseAux alts words bt fuel remainder
      | none => scanClauseAux alts words bt fuel rest

def scanClause (alts words : List String) (bt : Bool) (query : String) : List String :=
  scanClauseAux alts words bt query.data.length query.data

/-- The per-match cleanup: name.replace removing backtick and double-quote
characters everywhere, then trim. -/
def stripQuoteBacktick (s : String) : String :=
  String.mk (s.data.filter (fun c => !(c == Char.ofNat 34 || c == Char.ofNat 96)))

def cleanName (m : String) : String := jsTrim (stripQuoteBacktick m)

/-- String.prototype.startsWith on whole strings. -/
def jsStartsWith (s p : String) : Bool := p.data.isPrefixOf s.data

def rawObjectNames (query : String) : List String :=
  let fromNames := ((scanClause ["FROM"] [] true query).map cleanName).filter
    (fun n => !(n == "") && !(jsStartsWith n "("))
  let joinNames := (((scanClause ["JOIN"] [] true query) ++
    (scanClause ["INNER"] ["JOIN"] true query) ++
    (scanClause ["LEFT"] ["JOIN"] true query) ++
    (scanClause ["RIGHT"] ["JOIN"] true query) ++
    (scanClause ["OUTER"] ["JOIN"] true query) ++
    (scanClause ["FULL"] ["OUTER", "JOIN"] true query)).map cleanName).filter
    (fun n => !(n == ""))
  let intoNames := ((scanClause ["INTO"] [] false query).map cleanName).filter
    (fun n => !(n == ""))
  let tableNames := ((scanClause ["CREATE", "ALTER", "DROP"] ["TABLE"] false query).map
    cleanName).filter (fun n => !(n == ""))
  let updateNames := ((scanClause ["UPDATE"] [] false query).map cleanName).filter
    (fun n => !(n == ""))
  fromNames ++ joinNames ++ intoNames ++ tableNames ++ updateNames

/-- The order-preserving deduplication performed by spreading a JS Set built
from the collected list: keep the first occurrence of each name. -/
def dedupFirstAux (seen : List String) : List String → List String
  | [] => []
  | x :: xs =>
      if seen.contains x then dedupFirstAux seen xs
      else x :: dedupFirstAux (x :: seen) xs

def dedupFirst (l : List String) : List String := dedupFirstAux [] l

def extractObjectNames (query : String) : List String :=
  dedupFirst (rawObjectNames query)

/-! The result redactor (src/unnamed/part_000).  JavaScript values flowing
through redactJsonResult are modelled by an inductive `Json`; the undefined
value (produced by missing-property access) is the constructor `undefined`.
JSON numbers are modelled as integers, which covers every value the claims
touch.  JSON.parse itself is a language builtin, so redactJsonResult is
modelled on its outcome: `none` for a parse failure, `some v` for success
(a parse never yields `undefined`).  A thrown TypeError anywhere in the body is
`Except.error ()`; the catch block maps it to the error envelope. -/

inductive Json where
  | undefined
  | null
  | bool (b : Bool)
  | num (n : Int)
  | str (s : String)
  | arr (elems : List Json)
  | obj (fields : List (String × Json))

/-- JavaScript truthiness of a `Json` value. -/
def truthy : Json → Bool
  | .undefined => false
  | .null => false
  | .bool b => b
  | .num n => !(n == 0)
  | .str s => !(s == "")
  | .arr _ => true
  | .obj _ => true

def lookupField : List (String × Json) → String → Option Json
  | [], _ => none
  | (k, v) :: rest, key => if k == key then some v else lookupField rest key

/-- Property access `o[k]` for objects: a missing key yields undefined. -/
def getProp (fields : List (String × Json)) (k : String) : Json :=
  (lookupField fields k).getD .undefined

/-- Truthiness of `o.k` including the undefined case. -/
def truthyProp (fields : List (String × Json)) (k : String) : Bool :=
  truthy (getProp fields k)

/-- The typeof operator. -/
def jsTypeof : Json → String
  | .undefined => "undefined"
  | .null => "object"
  | .bool _ => "boolean"
  | .num _ => "number"
  | .str _ => "string"
  | .arr _ => "object"
  | .obj _ => "object"

/-- Object.keys with each key's value: throws on null/undefined, gives index
properties for arrays and strings, and no own properties for primitives. -/
def keysOf : Json → Except Unit (List (String × Json))
  | .undefined => .error ()
  | .null => .error ()
  | .obj fields => .ok fields
  | .arr xs => .ok (xs.enum.map (fun p => (toString p.1, p.2)))
  | .str s => .ok (s.data.enum.map (fun p => (toString p.1, Json.str (String.mk [p.2]))))
  | .bool _ => .ok []
  | .num _ => .ok []

/-- extractColumns (src/unnamed/part_000 lines 61-67). -/
def extractColumns (o : Json) : Except Unit (List Json) :=
  match keysOf o with
  | .error e => .error e
  | .ok fields =>
      .ok (fields.map (fun kv =>
        Json.obj [("name", Json.str kv.1), ("type", Json.str (jsTypeof kv.2)),
                  ("nullable", Json.bool true)]))

/-- One entry of `(raw.columns || []).map(col => ...)`: property access on
null/undefined entries throws. -/
def columnEntry : Json → Except Unit Json
  | .undefined => .error ()
  | .null => .error ()
  | .obj fields =>
      .ok (Json.obj [("name", getProp fields "name"), ("type", getProp fields "type"),
                     ("nullable", Json.bool true)])
  | _ =>
      .ok (Json.obj [("name", Json.undefined), ("type", Json.undefined),
                     ("nullable", Json.bool true)])

def columnEntries : List Json → Except Unit (List Json)
  | [] => .ok []
  | col :: rest =>
      match columnEntry col with
      | .error e => .error e
      | .ok entry =>
          match columnEntries rest with
          | .error e => .error e
          | .ok entries => .ok (entry :: entries)

/-- `(raw.columns || []).map(...)`: a falsy columns value yields the empty
list, an array is mapped, and calling .map on any other truthy value
throws. -/
def columnsValue (colsVal : Json) : Except Unit (List Json) :=
  if truthy colsVal then
    match colsVal with
    | .arr xs => columnEntries xs
    | _ => .error ()
  else .ok []

def redactedEnvelope (columns : Json) (rowCount : Json) : Json :=
  Json.obj [("metadata", Json.obj [("columns", columns), ("rowCount", rowCount)]),
            ("data", Json.arr [])]

/-- The nullish-coalescing default `raw.rowCount ?? 0`. -/
def rowCountDefault : Json → Json
  | .undefined => Json.num 0
  | .null => Json.num 0
  | v => v

/-- redactResult (src/unnamed/part_000 lines 9-25) applied to a parsed JSON
object, as called from redactJsonResult: columns are rebuilt, rowCount is
`raw.rowCount ?? 0`, and data is unconditionally empty. -/
def redactResultJson (fields : List (String × Json)) : Except Unit Json :=
  match columnsValue (getProp fields "columns") with
  | .error e => .error e
  | .ok cols =>
      .ok (redactedEnvelope (Json.arr cols) (rowCountDefault (getProp fields "rowCount")))

/-- The body of the try block of redactJsonResult (src/unnamed/part_000
lines 28-55) on a successfully parsed value. -/
def redactJsonBody (parsed : Json) : Except Unit Json :=
  match parsed with
  | .arr xs =>
      match xs with
      | [] => .ok (redactedEnvelope (Json.arr []) (Json.num 0))
      | x :: _ =>
          match extractColumns x with
          | .error e => .error e
          | .ok cols => .ok (redactedEnvelope (Json.arr cols) (Json.num xs.length))
  | .obj fields =>
      if truthyProp fields "columns" || truthyProp fields "rows" ||
          truthyProp fields "data" then
        redactResultJson fields
      else
        match extractColumns (Json.obj fields) with
        | .error e => .error e
        | .ok cols => .ok (redactedEnvelope (Json.arr cols) (Json.num 1))
  | _ => .ok (Json.obj [("value", Json.str "[REDACTED]")])

def parseErrorEnvelope : Json :=
  Json.obj [("error", Json.str "Failed to parse result"), ("raw", Json.str "[REDACTED]")]

/-- redactJsonResult on the outcome of JSON.parse: a parse failure or a
thrown TypeError both land in the catch block. -/
def redactJsonResult (parseOutcome : Option Json) : Json :=
  match parseOutcome with
  | none => parseErrorEnvelope
  | some parsed =>
      match redactJsonBody parsed with
      | .ok v => v
      | .error _ => parseErrorEnvelope

/-! redactResult (src/unnamed/part_000 lines 9-25) on an already-typed
result object, as the proxy calls it on executor output. -/

structure ColumnSpec where
  name : String
  type : String
deriving DecidableEq

structure ColumnInfo where
  name : String
  type : String
  nullable : Bool
deriving DecidableEq

structure RawQueryResult where
  columns : Option (List ColumnSpec)
  rows : Option (List Json)
  rowCount : Option Int

structure ResultMetadata where
  columns : List ColumnInfo
  rowCount : Int
deriving DecidableEq

structure RedactedResult where
  metadata : ResultMetadata
  data : List Json

def redactResult (result : Option RawQueryResult) : RedactedResult :=
  { metadata :=
      { columns := ((result.bind (fun r => r.columns)).getD []).map
          (fun col => { name := col.name, type := col.type, nullable := true }),
        rowCount := (result.bind (fun r => r.rowCount)).getD 0 },
    data := [] }

/-- Field access on the output value of redactJsonResult. -/
def getField : Json → String → Option Json
  | .obj fields, k => lookupField fields k
  | _, _ => none

def metaRowCount (j : Json) : Option Json :=
  (getField j "metadata").bind (fun m => getField m "rowCount")

/-! simpleHash (src/unnamed/part_001 lines 141-149).  JavaScript bitwise
operators work on 32-bit two's-complement integers: `hash << 5` and
`hash & hash` both coerce through ToInt32, while the subtraction and the
addition of the UTF-16 code unit are exact number arithmetic. -/

def toInt32 (x : Int) : Int :=
  let m := x % 4294967296
  if m < 2147483648 then m else m - 4294967296

def hashStep (hash : Int) (c : Char) : Int :=
  toInt32 (toInt32 (hash * 32) - hash + c.toNat)

def natToHexDigits (n : Nat) : String := String.mk (Nat.toDigits 16 n)

/-- Number.prototype.toString(16) on a 32-bit integer value. -/
def jsHexString (i : Int) : String :=
  if i < 0 then "-" ++ natToHexDigits (-i).toNat else natToHexDigits i.toNat

def simpleHash (content : String) : String :=
  jsHexString (content.data.foldl hashStep 0)

/-! checkStalenessTool (src/unnamed/part_001 lines 434-520).  The executor
and the filesystem are external collaborators: `currentDDL` is the text
getDDL returned (the empty string when the fetch failed or produced no
rows), and `localFile` is the local file's content when it exists. -/

structure StalenessInput where
  objectName : String
  objectType : String
  localPath : String
  database : Option String
  schema : Option String
deriving DecidableEq

def jsTruthyOptStr : Option String → Bool
  | none => false
  | some s => !(s == "")

/-- `database || schema ? \x7bdatabase || ''\x7d.\x7bschema || ''\x7d.\x7bobjectName\x7d : objectName` -/
def fullObjectNameOf (database schema : Option String) (objectName : String) : String :=
  if jsTruthyOptStr database || jsTruthyOptStr schema then
    (database.getD "") ++ "." ++ (schema.getD "") ++ "." ++ objectName
  else objectName

structure StalenessCheck where
  isStale : Bool
  objectName : String
  objectType : String
  localPath : String
  currentHash : Option String
  localHash : Option String
  reason : String
deriving DecidableEq

inductive ToolResponse where
  | err (error message code : String)
  | ok (check : StalenessCheck)
deriving DecidableEq

def checkStalenessTool (patterns : List JSRegex) (objectTypes : List String)
    (inp : StalenessInput) (currentDDL : String) (localFile : Option String) :
    ToolResponse :=
  let fullObjectName := fullObjectNameOf inp.database inp.schema inp.objectName
  let exclusionResult := checkExclusion patterns objectTypes fullObjectName
  if exclusionResult.isExcluded then
    .err "EXCLUDED_OBJECT"
      ("Object '" ++ fullObjectName ++ "' matches exclusion pattern '" ++
        (exclusionResult.matchedPattern.getD "undefined") ++ "'") "E5001"
  else if currentDDL == "" then
    .err "OBJECT_NOT_FOUND"
      ("Could not retrieve DDL for " ++ inp.objectType ++ " " ++ fullObjectName) "E5002"
  else
    match localFile with
    | none =>
        .ok { isStale := true, objectName := fullObjectName, objectType := inp.objectType,
              localPath := inp.localPath, currentHash := none, localHash := none,
              reason := "Local file does not exist" }
    | some localDDL =>
        let currentHash := simpleHash currentDDL
        let localHash := simpleHash localDDL
        let isStale := !(currentHash == localHash)
        .ok { isStale := isStale, objectName := fullObjectName,
              objectType := inp.objectType, localPath := inp.localPath,
              currentHash := some currentHash, localHash := some localHash,
              reason := if isStale then "DDL differs from remote" else "DDL matches remote" }

/-! syncObjectsTool (src/unnamed/part_001 lines 151-432).  The executor and
the filesystem are external collaborators, abstracted as an environment:
`excl` is exclusionChecker.check(fqName).isExcluded over the configured
rules, `listNames` is listObjects (object type, optional --in scope, giving
the parsed name column), and `ddl` is getDDL (object type and dot-joined
full name; the empty string stands for a failed or empty fetch, the falsy
case in the source).  The walk is logged in program order: every SyncResult
push, every writeFile call, every listObjects call, and every exclusion
check together with its outcome. -/

inductive SyncStatus where
  | synced
  | skipped
  | error
deriving DecidableEq

structure SyncResult where
  type : String
  name : String
  status : SyncStatus
  path : Option String
  error : Option String
deriving DecidableEq

structure FileWrite where
  path : String
  content : String
  fqName : String
deriving DecidableEq

structure ListCall where
  objectType : String
  scope : Option String
deriving DecidableEq

structure SyncEnv where
  excl : String → Bool
  listNames : String → Option String → List String
  ddl : String → String → String

structure SyncFlags where
  includeDatabases : Bool
  includeSchemas : Bool
  includeTables : Bool
  includeViews : Bool
  includeFunctions : Bool
  includeProcedures : Bool
  includeStages : Bool
  includeTasks : Bool

structure SyncOut where
  results : List SyncResult
  writes : List FileWrite
  listed : List ListCall
  checked : List (String × Bool)

def SyncOut.empty : SyncOut := ⟨[], [], [], []⟩

def SyncOut.append (a b : SyncOut) : SyncOut :=
  ⟨a.results ++ b.results, a.writes ++ b.writes, a.listed ++ b.listed,
   a.checked ++ b.checked⟩

instance : Append SyncOut := ⟨SyncOut.append⟩

def SyncOut.concat (l : List SyncOut) : SyncOut := l.foldr SyncOut.append SyncOut.empty

/-- One leaf object (table, view, function, procedure, stage or task) inside
an allowed schema. -/
def syncLeafItem (env : SyncEnv)
    (targetDir dbName schemaName category subdir n : String) : SyncOut :=
  if n == "" then .empty
  else
    let fqName := dbName ++ "." ++ schemaName ++ "." ++ n
    if env.excl fqName then
      ⟨[⟨category, fqName, .skipped, none, some "Excluded by pattern"⟩], [], [],
       [(fqName, true)]⟩
    else
      let d := env.ddl category fqName
      if d == "" then ⟨[], [], [], [(fqName, false)]⟩
      else
        let p := targetDir ++ "/" ++ dbName ++ "/" ++ schemaName ++ "/" ++ subdir ++
          "/" ++ n ++ ".sql"
        ⟨[⟨category, fqName, .synced, some p, none⟩], [⟨p, d, fqName⟩], [],
         [(fqName, false)]⟩

/-- One object-category block inside an allowed schema, gated by its flag. -/
def syncLeafCategory (env : SyncEnv) (incl : Bool)
    (targetDir dbName schemaName category subdir : String) : SyncOut :=
  if incl then
    let scope := dbName ++ "." ++ schemaName
    SyncOut.append ⟨[], [], [⟨category, some scope⟩], []⟩
      (SyncOut.concat ((env.listNames category (some scope)).map
        (syncLeafItem env targetDir dbName schemaName category subdir)))
  else .empty

/-- One schema inside an allowed database. -/
def syncSchemaItem (env : SyncEnv) (flags : SyncFlags) (targetDir dbName s : String) :
    SyncOut :=
  if s == "" then .empty
  else
    let fq := dbName ++ "." ++ s
    if env.excl fq then
      ⟨[⟨"schema", fq, .skipped, none, some "Excluded by pattern"⟩], [], [], [(fq, true)]⟩
    else
      let d := env.ddl "schema" fq
      let own : SyncOut :=
        if d == "" then ⟨[], [], [], [(fq, false)]⟩
        else
          let p := targetDir ++ "/" ++ dbName ++ "/" ++ s ++ "/_schema.sql"
          ⟨[⟨"schema", fq, .synced, some p, none⟩], [⟨p, d, fq⟩], [], [(fq, false)]⟩
      SyncOut.append own (SyncOut.concat
        [syncLeafCategory env flags.includeTables targetDir dbName s "table" "tables",
         syncLeafCategory env flags.includeViews targetDir dbName s "view" "views",
         syncLeafCategory env flags.includeFunctions targetDir dbName s "function" "functions",
         syncLeafCategory env flags.includeProcedures targetDir dbName s "procedure" "procedures",
         syncLeafCategory env flags.includeStages targetDir dbName s "stage" "stages",
         syncLeafCategory env flags.includeTasks targetDir dbName s "task" "tasks"])

/-- One database from the top-level listing. -/
def syncDbItem (env : SyncEnv) (flags : SyncFlags) (targetDir dbName : String) : SyncOut :=
  if dbName == "" then .empty
  else if env.excl dbName then
    ⟨[⟨"database", dbName, .skipped, none, some "Excluded by pattern"⟩], [], [],
     [(dbName, true)]⟩
  else
    let d := env.ddl "database" dbName
    let own : SyncOut :=
      if d == "" then ⟨[], [], [], [(dbName, false)]⟩
      else
        let p := targetDir ++ "/" ++ dbName ++ "/_database.sql"
        ⟨[⟨"database", dbName, .synced, some p, none⟩], [⟨p, d, dbName⟩], [],
         [(dbName, false)]⟩
    SyncOut.append own
      (if flags.includeSchemas then
        SyncOut.append ⟨[], [], [⟨"schema", some dbName⟩], []⟩
          (SyncOut.concat ((env.listNames "schema" (some dbName)).map
            (syncSchemaItem env flags targetDir dbName)))
      else .empty)

/-- The complete walk of syncObjectsTool before the index write. -/
def syncObjects (env : SyncEnv) (flags : SyncFlags) (targetDir : String) : SyncOut :=
  if flags.includeDatabases then
    SyncOut.append ⟨[], [], [⟨"database", none⟩], []⟩
      (SyncOut.concat ((env.listNames "database" none).map
        (syncDbItem env flags targetDir)))
  else .empty

/-- The .object-repository.json index (src/unnamed/part_001 lines 404-413),
minus the wall-clock lastSync field. -/
structure ObjectRepositoryIndex where
  targetDir : String
  objectCount : Nat
  skippedCount : Nat
  errorCount : Nat
  objects : List SyncResult

def buildIndex (targetDir : String) (syncResults : List SyncResult) :
    ObjectRepositoryIndex :=
  { targetDir := targetDir,
    objectCount := (syncResults.filter (fun r => r.status == .synced)).length,
    skippedCount := (syncResults.filter (fun r => r.status == .skipped)).length,
    errorCount := (syncResults.filter (fun r => r.status == .error)).length,
    objects := syncResults }

def responseIsStale : ToolResponse → Option Bool
  | .err _ _ _ => none
  | .ok c => some c.isStale

def responseReason : ToolResponse → Option String
  | .err _ _ _ => none
  | .ok c => some c.reason

/-- C3: metadata patterns take strict precedence over scalar patterns in
classification: every query matching both a metadata and a scalar pattern is
classified metadata, and in particular
classifyQuery("SELECT COUNT(*) FROM INFORMATION_SCHEMA.TABLES").type is
metadata. -/
theorem classifyQuery_metadata_precedence :
    (∀ q : String,
        (∃ mp ∈ METADATA_PATTERNS, mp.test (jsTrim q) = true) →
        (∃ sp ∈ SCALAR_PATTERNS, sp.test (jsTrim q) = true) →
        (classifyQuery q).type = QueryType.metadata) ∧
    (classifyQuery "SELECT COUNT(*) FROM INFORMATION_SCHEMA.TABLES").type
      = QueryType.metadata := by
  constructor
  · intro q hm _
    obtain ⟨mp, hmem, htest⟩ := hm
    cases hfind : METADATA_PATTERNS.find? (fun p => p.test (jsTrim q)) with
    | none =>
        exact absurd htest (by simpa using List.find?_eq_none.mp hfind mp hmem)
    | some p =>
        simp [classifyQuery, hfind]
  · decide

/-- Witness for C3: the example query matches a metadata pattern and a scalar
pattern, and the classifier resolves it to metadata. -/
theorem classifyQuery_metadata_precedence_witness :
    (∃ mp ∈ METADATA_PATTERNS,
        mp.test (jsTrim "SELECT COUNT(*) FROM INFORMATION_SCHEMA.TABLES") = true) ∧
    (∃ sp ∈ SCALAR_PATTERNS,
        sp.test (jsTrim "SELECT COUNT(*) FROM INFORMATION_SCHEMA.TABLES") = true) ∧
    (classifyQuery "SELECT COUNT(*) FROM INFORMATION_SCHEMA.TABLES").type
      = QueryType.metadata :=
  ⟨by decide, by decide,
    classifyQuery_metadata_precedence.1 "SELECT COUNT(*) FROM INFORMATION_SCHEMA.TABLES"
      (by decide) (by decide)⟩

/-- C9 counterexample: the data query SELECT 'SHOW TABLES' FROM t is
classified metadata even though no metadata pattern matches at the beginning
of the trimmed query text: the SHOW pattern fires on a keyword occurring only
later, inside a string literal. -/
theorem classifyQuery_unanchored_counterexample :
    (classifyQuery "SELECT 'SHOW TABLES' FROM t").type = QueryType.metadata ∧
    METADATA_PATTERNS.all
      (fun p => !(p.testAtStart (jsTrim "SELECT 'SHOW TABLES' FROM t"))) = true := by
  constructor
  · decide
  · decide

/-- C9 amended: scalar classification is anchored (a scalar verdict implies a
scalar pattern matching at the start of the trimmed query), but metadata
classification is not: the DESCRIBE/SHOW/LIST/GET_DDL/GET DDL patterns are
unanchored, so a metadata verdict only implies a match somewhere in the
query, and a query can be classified metadata with no metadata pattern
matching at the beginning. -/
theorem classifyQuery_anchoring :
    (∀ q : String, (classifyQuery q).type = QueryType.scalar →
        ∃ p ∈ SCALAR_PATTERNS, p.testAtStart (jsTrim q) = true) ∧
    ((classifyQuery "SELECT 'SHOW TABLES' FROM t").type = QueryType.metadata ∧
      METADATA_PATTERNS.all
        (fun p => !(p.testAtStart (jsTrim "SELECT 'SHOW TABLES' FROM t"))) = true) ∧
    (∀ q : String, (classifyQuery q).type = QueryType.metadata →
        ∃ p ∈ METADATA_PATTERNS, p.test (jsTrim q) = true) := by
  refine ⟨?_, ⟨by decide, by decide⟩, ?_⟩
  · intro q h
    simp only [classifyQuery] at h
    cases hfind : METADATA_PATTERNS.find? (fun p => p.test (jsTrim q)) with
    | some p => rw [hfind] at h; simp at h
    | none =>
        rw [hfind] at h
        cases hfind2 : SCALAR_PATTERNS.find? (fun p => p.test (jsTrim q)) with
        | none => rw [hfind2] at h; simp at h
        | some p =>
            have hmem := List.mem_of_find?_eq_some hfind2
            have htest := List.find?_some hfind2
            refine ⟨p, hmem, ?_⟩
            have hanch : p.anchoredStart = true := by
              simp only [SCALAR_PATTERNS, List.mem_cons, List.mem_singleton] at hmem
              rcases hmem with rfl | rfl | h0
              · rfl
              · rfl
              · simp at h0
            rw [← JSRegex.test_of_anchored p hanch]
            simpa using htest
  · intro q h
    simp only [classifyQuery] at h
    cases hfind : METADATA_PATTERNS.find? (fun p => p.test (jsTrim q)) with
    | some p =>
        exact ⟨p, List.mem_of_find?_eq_some hfind, by simpa using List.find?_some hfind⟩
    | none =>
        rw [hfind] at h
        cases hfind2 : SCALAR_PATTERNS.find? (fun p => p.test (jsTrim q)) with
        | none => rw [hfind2] at h; simp at h
        | some p => rw [hfind2] at h; simp at h

/-- Witness for the amended C9 at a concrete scalar query. -/
theorem classifyQuery_anchoring_witness :
    ((classifyQuery "SELECT SUM(x) FROM t").type = QueryType.scalar) ∧
    (∃ p ∈ SCALAR_PATTERNS, p.testAtStart (jsTrim "SELECT SUM(x) FROM t") = true) :=
  ⟨by decide, classifyQuery_anchoring.1 "SELECT SUM(x) FROM t" (by decide)⟩

/-- C7: check tries the configured regexes in order, the first match wins and
its source is reported as matchedPattern; a non-matching name falls back to
the uppercased object-type set with a synthetic objectType tag, and otherwise
the name is allowed.  The configured patterns carry the i flag, giving the
case-insensitive concrete examples. -/
theorem checkExclusion_spec :
    (∀ (patterns : List JSRegex) (objectTypes : List String) (name : String)
        (pre post : List JSRegex) (p : JSRegex),
        patterns = pre ++ p :: post →
        (∀ q ∈ pre, q.test name = false) →
        p.test name = true →
        checkExclusion patterns objectTypes name
          = { isExcluded := true, matchedPattern := some p.source }) ∧
    (∀ (patterns : List JSRegex) (objectTypes : List String) (name : String),
        (∀ p ∈ patterns, p.test name = false) →
        objectTypes.contains (jsToUpperCase name) = true →
        checkExclusion patterns objectTypes name
          = { isExcluded := true, matchedPattern := some ("objectType:" ++ name) }) ∧
    (∀ (patterns : List JSRegex) (objectTypes : List String) (name : String),
        (∀ p ∈ patterns, p.test name = false) →
        objectTypes.contains (jsToUpperCase name) = false →
        checkExclusion patterns objectTypes name
          = { isExcluded := false, matchedPattern := none }) ∧
    (checkExclusion [patternPROD] [] "prod_x"
      = { isExcluded := true, matchedPattern := some "^PROD_" }) ∧
    (checkExclusion [patternPROD] [] "PROD_X"
      = { isExcluded := true, matchedPattern := some "^PROD_" }) ∧
    (checkExclusion [patternBACKUP] [] "orders_BACKUP"
      = { isExcluded := true, matchedPattern := some "_BACKUP$" }) := by
  refine ⟨?_, ?_, ?_, by decide, by decide, by decide⟩
  · intro patterns objectTypes name pre post p hsplit hpre hp
    subst hsplit
    have hfind : (pre ++ p :: post).find? (fun q => q.test name) = some p := by
      rw [List.find?_append]
      have h1 : pre.find? (fun q => q.test name) = none :=
        List.find?_eq_none.mpr (fun x hx => by simp [hpre x hx])
      rw [h1, Option.none_or]
      exact List.find?_cons_of_pos _ (by simpa using hp)
    simp [checkExclusion, hfind]
  · intro patterns objectTypes name hnone hct
    have hfind : patterns.find? (fun q => q.test name) = none :=
      List.find?_eq_none.mpr (fun x hx => by simp [hnone x hx])
    simp [checkExclusion, hfind, hct]
    exact List.elem_iff.mp hct
  · intro patterns objectTypes name hnone hct
    have hfind : patterns.find? (fun q => q.test name) = none :=
      List.find?_eq_none.mpr (fun x hx => by simp [hnone x hx])
    simp [checkExclusion, hfind, hct]
    intro hmem
    have hc : objectTypes.contains (jsToUpperCase name) = true := List.elem_iff.mpr hmem
    rw [hc] at hct
    exact Bool.noConfusion hct

/-- Witness for C7 at concrete inputs: a regex match, an object-type fallback
match, and an allowed name. -/
theorem checkExclusion_spec_witness :
    checkExclusion [patternBACKUP] [] "orders_BACKUP"
      = { isExcluded := true, matchedPattern := some "_BACKUP$" } ∧
    checkExclusion [] ["SNAPSHOT"] "snapshot"
      = { isExcluded := true, matchedPattern := some "objectType:snapshot" } ∧
    checkExclusion [patternPROD] [] "regular_table"
      = { isExcluded := false, matchedPattern := none } :=
  ⟨checkExclusion_spec.1 [patternBACKUP] [] "orders_BACKUP" [] [] patternBACKUP rfl
      (by simp) (by decide),
   checkExclusion_spec.2.1 [] ["SNAPSHOT"] "snapshot" (by simp) (by decide),
   checkExclusion_spec.2.2.1 [patternPROD] [] "regular_table" (by decide) (by decide)⟩

/-- C4: the staleness digest simpleHash is a 31-multiplier rolling hash whose
hex output is not of fixed length (length 1 on the empty string, length 3 on
"Aa"), and which collides on distinct two-character inputs such as "Aa" and
"BB" — not a fixed-length cryptographic digest. -/
theorem simpleHash_toy_hash :
    simpleHash "" = "0" ∧ simpleHash "Aa" = "840" ∧ simpleHash "BB" = "840" ∧
    ("Aa" : String) ≠ "BB" ∧ (simpleHash "").length ≠ (simpleHash "Aa").length := by
  refine ⟨by decide, by decide, by decide, by decide, by decide⟩

/-- C6 counterexample: when the local file is absent the reason string the
tool reports is "Local file does not exist", not "missing". -/
theorem checkStaleness_missing_reason_counterexample :
    responseReason (checkStalenessTool [] []
      { objectName := "T", objectType := "table", localPath := "local/T.sql",
        database := none, schema := none } "CREATE TABLE T (X INT)" none)
      = some "Local file does not exist" ∧
    responseIsStale (checkStalenessTool [] []
      { objectName := "T", objectType := "table", localPath := "local/T.sql",
        database := none, schema := none } "CREATE TABLE T (X INT)" none)
      = some true ∧
    some "Local file does not exist" ≠ some "missing" := by
  refine ⟨by decide, by decide, by decide⟩

/-- C6 amended: on a non-excluded object with a nonempty remote DDL fetch, an
absent local file yields isStale true with reason "Local file does not
exist", and a present local file yields isStale false exactly when the digest
of the local content equals the digest of the current remote DDL. -/
theorem checkStaleness_spec (patterns : List JSRegex) (objectTypes : List String)
    (inp : StalenessInput) (currentDDL : String)
    (hex : (checkExclusion patterns objectTypes
      (fullObjectNameOf inp.database inp.schema inp.objectName)).isExcluded = false)
    (hddl : currentDDL ≠ "") :
    (responseIsStale (checkStalenessTool patterns objectTypes inp currentDDL none)
        = some true ∧
      responseReason (checkStalenessTool patterns objectTypes inp currentDDL none)
        = some "Local file does not exist") ∧
    (∀ localDDL : String,
        responseIsStale (checkStalenessTool patterns objectTypes inp currentDDL
            (some localDDL)) = some false
          ↔ simpleHash localDDL = simpleHash currentDDL) := by
  have hddl' : (currentDDL == "") = false := by simpa using hddl
  refine ⟨⟨?_, ?_⟩, ?_⟩
  · simp only [checkStalenessTool, hex, hddl']
    simp [responseIsStale]
  · simp only [checkStalenessTool, hex, hddl']
    simp [responseReason]
  · intro localDDL
    simp only [checkStalenessTool, hex, hddl']
    simp only [responseIsStale]
    constructor
    · intro h
      have h2 := Option.some.inj h
      have h3 : (simpleHash currentDDL == simpleHash localDDL) = true := by
        cases hb : simpleHash currentDDL == simpleHash localDDL with
        | true => rfl
        | false => rw [hb] at h2; simp at h2
      exact ((beq_iff_eq ..).mp h3).symm
    · intro h
      rw [h]
      simp

/-- Witness for the amended C6 at concrete inputs. -/
theorem checkStaleness_spec_witness :
    responseReason (checkStalenessTool [] []
      { objectName := "T", objectType := "table", localPath := "local/T.sql",
        database := none, schema := none } "CREATE X" none)
      = some "Local file does not exist" ∧
    responseIsStale (checkStalenessTool [] []
      { objectName := "T", objectType := "table", localPath := "local/T.sql",
        database := none, schema := none } "CREATE X" (some "CREATE X"))
      = some false :=
  ⟨(checkStaleness_spec [] [] _ "CREATE X" (by decide) (by decide)).1.2,
   ((checkStaleness_spec [] [] _ "CREATE X" (by decide) (by decide)).2 "CREATE X").mpr rfl⟩

def rawInput1 : RawQueryResult := { columns := none, rows := some [Json.obj []], rowCount := some 3 }

def rawInput2 : RawQueryResult := { columns := none, rows := some [Json.obj []], rowCount := none }

def rawInput3 : RawQueryResult := { columns := none, rows := none, rowCount := some 7 }

theorem metaRowCount_envelope (c rc : Json) :
    metaRowCount (redactedEnvelope c rc) = some rc := rfl

/-- Every successful branch of the redactJsonResult body yields either a
redacted envelope whose data field is the empty array and which has no rows
field, or the primitive value envelope. -/
theorem redactJsonBody_ok_shape (parsed : Json) (v : Json)
    (h : redactJsonBody parsed = .ok v) :
    (getField v "data" = some (Json.arr []) ∧ getField v "rows" = none) ∨
    v = Json.obj [("value", Json.str "[REDACTED]")] := by
  cases parsed with
  | arr xs =>
      cases xs with
      | nil =>
          left
          simp only [redactJsonBody] at h
          cases h
          exact ⟨rfl, rfl⟩
      | cons x rest =>
          cases hc : extractColumns x with
          | error e => simp [redactJsonBody, hc] at h
          | ok cols =>
              left
              simp only [redactJsonBody, hc] at h
              cases h
              exact ⟨rfl, rfl⟩
  | obj fields =>
      by_cases ht : (truthyProp fields "columns" || truthyProp fields "rows" ||
        truthyProp fields "data") = true
      · simp only [redactJsonBody, ht, if_true] at h
        cases h1 : columnsValue (getProp fields "columns") with
        | error e => simp [redactResultJson, h1] at h
        | ok cols =>
            left
            simp only [redactResultJson, h1] at h
            cases h
            exact ⟨rfl, rfl⟩
      · have ht' : (truthyProp fields "columns" || truthyProp fields "rows" ||
          truthyProp fields "data") = false := by simpa using ht
        simp only [redactJsonBody, ht', Bool.false_eq_true, if_false] at h
        cases hc : extractColumns (Json.obj fields) with
        | error e => rw [hc] at h; cases h
        | ok cols =>
            left
            rw [hc] at h
            cases h
            exact ⟨rfl, rfl⟩
  | undefined => right; simp only [redactJsonBody] at h; cases h; rfl
  | null => right; simp only [redactJsonBody] at h; cases h; rfl
  | bool b => right; simp only [redactJsonBody] at h; cases h; rfl
  | num n => right; simp only [redactJsonBody] at h; cases h; rfl
  | str s => right; simp only [redactJsonBody] at h; cases h; rfl

/-- C1: redactResult always returns an empty data sequence, and every
envelope redactJsonResult produces carries no row values: its data field, if
present, is the empty array, and it never has a rows field. -/
theorem redaction_data_always_empty :
    (∀ r : Option RawQueryResult, (redactResult r).data = []) ∧
    (∀ p : Option Json,
        (∀ v, getField (redactJsonResult p) "data" = some v → v = Json.arr []) ∧
        getField (redactJsonResult p) "rows" = none) := by
  refine ⟨fun r => rfl, fun p => ?_⟩
  cases p with
  | none =>
      exact ⟨fun v h => by simp [redactJsonResult, parseErrorEnvelope, getField,
        lookupField] at h, rfl⟩
  | some parsed =>
      cases hb : redactJsonBody parsed with
      | error e =>
          simp only [redactJsonResult, hb]
          exact ⟨fun v h => by simp [parseErrorEnvelope, getField, lookupField] at h, rfl⟩
      | ok v0 =>
          simp only [redactJsonResult, hb]
          rcases redactJsonBody_ok_shape parsed v0 hb with ⟨hd, hr⟩ | hval
          · exact ⟨fun v h => by rw [hd] at h; exact (Option.some.inj h).symm, hr⟩
          · subst hval
            exact ⟨fun v h => by simp [getField, lookupField] at h, rfl⟩

/-- Witness for C1 at concrete inputs with nonempty row data. -/
theorem redaction_data_always_empty_witness :
    (redactResult (some rawInput1)).data = [] ∧
    getField (redactJsonResult (some (Json.obj
      [("rows", Json.arr [Json.obj []])]))) "rows" = none ∧
    Json.arr [] = Json.arr [] :=
  ⟨redaction_data_always_empty.1 _,
   (redaction_data_always_empty.2 (some (Json.obj [("rows", Json.arr [Json.obj []])]))).2,
   (redaction_data_always_empty.2 (some (Json.obj
     [("rows", Json.arr [Json.obj []])]))).1 (Json.arr []) rfl⟩

/-- C5 counterexample: a structured result whose rows array has two elements
is reported with rowCount 0, because the code copies the input rowCount field
(defaulting to 0) instead of counting the row source; likewise the typed
redactResult reports 0 for a one-row input without a rowCount field. -/
theorem redact_rowCount_counterexample :
    metaRowCount (redactJsonResult (some (Json.obj
      [("rows", Json.arr [Json.obj [], Json.obj []])]))) = some (Json.num 0) ∧
    getField (Json.obj [("rows", Json.arr [Json.obj [], Json.obj []])]) "rows"
      = some (Json.arr [Json.obj [], Json.obj []]) ∧
    ([Json.obj [], Json.obj []] : List Json).length = 2 ∧
    (some (Json.num 0) : Option Json) ≠ some (Json.num 2) ∧
    (redactResult (some rawInput2)).metadata.rowCount = 0 ∧
    ([Json.obj []] : List Json).length = 1 ∧ (0 : Int) ≠ 1 := by
  refine ⟨rfl, rfl, rfl, ?_, rfl, rfl, by decide⟩
  intro h
  injection h with h1
  injection h1 with h2
  exact absurd h2 (by decide)

/-- C5 amended: rowCount is the array length for a top-level JSON array whose
redaction succeeds, 1 for a plain object with no truthy columns/rows/data
field, and for a structured result object it is copied from the input's own
rowCount field (0 when absent or null) rather than being the element count of
the rows source; the typed redactResult likewise reports the input rowCount
field with default 0. -/
theorem redact_rowCount_spec :
    (∀ (xs : List Json) (v : Json), redactJsonBody (Json.arr xs) = .ok v →
        metaRowCount v = some (Json.num xs.length)) ∧
    (∀ fields : List (String × Json),
        (truthyProp fields "columns" || truthyProp fields "rows" ||
          truthyProp fields "data") = false →
        metaRowCount (redactJsonResult (some (Json.obj fields))) = some (Json.num 1)) ∧
    (∀ (fields : List (String × Json)) (v : Json),
        (truthyProp fields "columns" || truthyProp fields "rows" ||
          truthyProp fields "data") = true →
        redactJsonBody (Json.obj fields) = .ok v →
        metaRowCount v = some (rowCountDefault (getProp fields "rowCount"))) ∧
    (∀ r : RawQueryResult, (redactResult (some r)).metadata.rowCount = r.rowCount.getD 0) := by
  refine ⟨?_, ?_, ?_, fun r => rfl⟩
  · intro xs v h
    cases xs with
    | nil => simp only [redactJsonBody] at h; cases h; rfl
    | cons x rest =>
        cases hc : extractColumns x with
        | error e => simp [redactJsonBody, hc] at h
        | ok cols =>
            simp only [redactJsonBody, hc] at h
            cases h
            rfl
  · intro fields ht'
    have hb : redactJsonBody (Json.obj fields)
        = .ok (redactedEnvelope (Json.arr ((fields.map (fun kv =>
            Json.obj [("name", Json.str kv.1), ("type", Json.str (jsTypeof kv.2)),
              ("nullable", Json.bool true)])))) (Json.num 1)) := by
      simp [redactJsonBody, ht', extractColumns, keysOf]
    simp only [redactJsonResult, hb]
    rfl
  · intro fields v ht h
    simp only [redactJsonBody, ht, if_true] at h
    cases h1 : columnsValue (getProp fields "columns") with
    | error e => simp [redactResultJson, h1] at h
    | ok cols =>
        simp only [redactResultJson, h1] at h
        cases h
        rfl

/-- Witness for the amended C5 at concrete inputs. -/
theorem redact_rowCount_spec_witness :
    metaRowCount (redactJsonResult (some (Json.obj [("x", Json.num 5)])))
      = some (Json.num 1) ∧
    metaRowCount (redactedEnvelope (Json.arr []) (Json.num 1)) = some (Json.num 1) ∧
    (redactResult (some rawInput3)).metadata.rowCount = (some (7 : Int)).getD 0 :=
  ⟨redact_rowCount_spec.2.1 [("x", Json.num 5)] rfl,
   redact_rowCount_spec.1 [Json.num 5] (redactedEnvelope (Json.arr []) (Json.num 1)) rfl,
   redact_rowCount_spec.2.2.2 _⟩

theorem mem_dedupFirstAux {a : String} :
    ∀ (seen l : List String), a ∈ dedupFirstAux seen l ↔ (a ∈ l ∧ ¬ a ∈ seen) := by
  intro seen l
  induction l generalizing seen with
  | nil => simp [dedupFirstAux]
  | cons x xs ih =>
      by_cases hc : seen.contains x
      · rw [dedupFirstAux, if_pos hc, ih]
        constructor
        · rintro ⟨hmem, hns⟩
          exact ⟨List.mem_cons_of_mem _ hmem, hns⟩
        · rintro ⟨hmem, hns⟩
          rcases List.mem_cons.mp hmem with rfl | hmem2
          · exact absurd (List.elem_iff.mp hc) hns
          · exact ⟨hmem2, hns⟩
      · rw [dedupFirstAux, if_neg hc]
        rw [List.mem_cons, ih]
        constructor
        · rintro (rfl | ⟨hmem, hns⟩)
          · exact ⟨List.mem_cons_self _ _, fun hs => hc (List.elem_iff.mpr hs)⟩
          · refine ⟨List.mem_cons_of_mem _ hmem, fun hs => hns (List.mem_cons_of_mem _ hs)⟩
        · rintro ⟨hmem, hns⟩
          by_cases hax : a = x
          · exact Or.inl hax
          · rcases List.mem_cons.mp hmem with rfl | hmem2
            · exact Or.inl rfl
            · refine Or.inr ⟨hmem2, fun hs => ?_⟩
              rcases List.mem_cons.mp hs with h9 | h9
              · exact hax h9
              · exact hns h9

theorem dedupFirstAux_nodup : ∀ (seen l : List String), (dedupFirstAux seen l).Nodup := by
  intro seen l
  induction l generalizing seen with
  | nil => simp [dedupFirstAux]
  | cons x xs ih =>
      by_cases hc : seen.contains x
      · rw [dedupFirstAux, if_pos hc]; exact ih seen
      · rw [dedupFirstAux, if_neg hc]
        refine List.nodup_cons.mpr ⟨fun hmem => ?_, ih (x :: seen)⟩
        exact ((mem_dedupFirstAux _ _).mp hmem).2 (List.mem_cons_self _ _)

theorem dedupFirstAux_sublist : ∀ (seen l : List String), (dedupFirstAux seen l).Sublist l := by
  intro seen l
  induction l generalizing seen with
  | nil => simp [dedupFirstAux]
  | cons x xs ih =>
      by_cases hc : seen.contains x
      · rw [dedupFirstAux, if_pos hc]; exact (ih seen).cons x
      · rw [dedupFirstAux, if_neg hc]; exact (ih (x :: seen)).cons₂ x

theorem mem_jsTrim {c : Char} {s : String} (h : c ∈ (jsTrim s).data) : c ∈ s.data := by
  simp only [jsTrim] at h
  rw [List.mem_reverse] at h
  have h2 := (List.dropWhile_sublist jsIsWhitespace).subset h
  rw [List.mem_reverse] at h2
  exact (List.dropWhile_sublist jsIsWhitespace).subset h2

theorem cleanName_no_quote {c : Char} {m : String} (h : c ∈ (cleanName m).data) :
    c ≠ Char.ofNat 34 ∧ c ≠ Char.ofNat 96 := by
  have h2 := mem_jsTrim h
  simp only [stripQuoteBacktick, List.mem_filter] at h2
  have := h2.2
  constructor
  · intro hq; rw [hq] at this; simp at this
  · intro hq; rw [hq] at this; simp at this

theorem rawObjectNames_clean {q n : String} (h : n ∈ rawObjectNames q) :
    ∃ m, n = cleanName m := by
  simp only [rawObjectNames, List.mem_append, List.mem_filter, List.mem_map,
    or_assoc] at h
  rcases h with ⟨⟨m, _, rfl⟩, _⟩ | ⟨⟨m, _, rfl⟩, _⟩ | ⟨⟨m, _, rfl⟩, _⟩ | ⟨⟨m, _, rfl⟩, _⟩ | ⟨⟨m, _, rfl⟩, _⟩
  all_goals exact ⟨m, rfl⟩

/-- C8: extractObjectNames returns the referenced object names deduplicated
while preserving first-seen order (a Nodup sublist of the raw capture list
with the same membership), with backtick and double-quote characters
stripped from every returned name, and on the example query
SELECT * FROM a JOIN b ON a.id=b.id it returns exactly ["a", "b"]. -/
theorem extractObjectNames_spec :
    extractObjectNames "SELECT * FROM a JOIN b ON a.id=b.id" = ["a", "b"] ∧
    (∀ q : String,
        (extractObjectNames q).Nodup ∧
        (extractObjectNames q).Sublist (rawObjectNames q) ∧
        (∀ n, n ∈ extractObjectNames q ↔ n ∈ rawObjectNames q) ∧
        (∀ n, n ∈ extractObjectNames q → ∀ c, c ∈ n.data →
            c ≠ Char.ofNat 34 ∧ c ≠ Char.ofNat 96)) := by
  refine ⟨by decide, fun q => ⟨dedupFirstAux_nodup [] _, dedupFirstAux_sublist [] _, ?_, ?_⟩⟩
  · intro n
    rw [extractObjectNames, dedupFirst, mem_dedupFirstAux]
    simp
  · intro n hmem c hc
    have hraw : n ∈ rawObjectNames q := by
      rw [extractObjectNames, dedupFirst, mem_dedupFirstAux] at hmem
      exact hmem.1
    obtain ⟨m, rfl⟩ := rawObjectNames_clean hraw
    exact cleanName_no_quote hc

/-- Witness for C8 at a concrete quoted query. -/
theorem extractObjectNames_spec_witness :
    extractObjectNames "SELECT * FROM `a` JOIN a ON 1=1" = ["a"] ∧
    (extractObjectNames "SELECT * FROM `a` JOIN a ON 1=1").Nodup ∧
    ("a" ∈ extractObjectNames "SELECT * FROM `a` JOIN a ON 1=1"
      ↔ "a" ∈ rawObjectNames "SELECT * FROM `a` JOIN a ON 1=1") ∧
    ('a' ≠ Char.ofNat 34 ∧ 'a' ≠ Char.ofNat 96) :=
  ⟨by decide,
   (extractObjectNames_spec.2 "SELECT * FROM `a` JOIN a ON 1=1").1,
   (extractObjectNames_spec.2 "SELECT * FROM `a` JOIN a ON 1=1").2.2.1 "a",
   (extractObjectNames_spec.2 "SELECT * FROM `a` JOIN a ON 1=1").2.2.2 "a" (by decide)
     'a' (by decide)⟩

/-- The walk invariant: files are written only for non-excluded names, the
skipped records line up one-to-one and in order with the exclusion checks
that returned true, every skipped record carries the fixed error text and an
excluded name, every listing call has a non-excluded scope, and no record has
error status. -/
def SyncInv (env : SyncEnv) (o : SyncOut) : Prop :=
  (∀ w ∈ o.writes, env.excl w.fqName = false) ∧
  ((o.results.filter (fun r => r.status == SyncStatus.skipped)).map (fun r => r.name)
     = (o.checked.filter (fun p => p.2)).map (fun p => p.1)) ∧
  (∀ r ∈ o.results, r.status = SyncStatus.skipped →
      r.error = some "Excluded by pattern" ∧ env.excl r.name = true) ∧
  (∀ l ∈ o.listed, ∀ s, l.scope = some s → env.excl s = false) ∧
  (∀ r ∈ o.results, r.status ≠ SyncStatus.error)

theorem SyncInv.emptyOut (env : SyncEnv) : SyncInv env SyncOut.empty := by
  refine ⟨?_, rfl, ?_, ?_, ?_⟩ <;> intro x hx <;> simp [SyncOut.empty] at hx

theorem SyncInv.app {env : SyncEnv} {a b : SyncOut} (ha : SyncInv env a)
    (hb : SyncInv env b) : SyncInv env (SyncOut.append a b) := by
  obtain ⟨ha1, ha2, ha3, ha4, ha5⟩ := ha
  obtain ⟨hb1, hb2, hb3, hb4, hb5⟩ := hb
  simp only [SyncInv, SyncOut.append]
  refine ⟨?_, ?_, ?_, ?_, ?_⟩
  · intro w hw
    rcases List.mem_append.mp hw with h | h
    exacts [ha1 w h, hb1 w h]
  · rw [List.filter_append, List.filter_append, List.map_append, List.map_append,
      ha2, hb2]
  · intro r hr
    rcases List.mem_append.mp hr with h | h
    exacts [ha3 r h, hb3 r h]
  · intro l hl
    rcases List.mem_append.mp hl with h | h
    exacts [ha4 l h, hb4 l h]
  · intro r hr
    rcases List.mem_append.mp hr with h | h
    exacts [ha5 r h, hb5 r h]

theorem SyncInv.concatOut {env : SyncEnv} {l : List SyncOut}
    (h : ∀ o ∈ l, SyncInv env o) : SyncInv env (SyncOut.concat l) := by
  induction l with
  | nil => exact SyncInv.emptyOut env
  | cons x xs ih =>
      exact SyncInv.app (h x (List.mem_cons_self _ _))
        (ih (fun o ho => h o (List.mem_cons_of_mem _ ho)))

theorem SyncInv.skipOut (env : SyncEnv) (cat fq : String) (h : env.excl fq = true) :
    SyncInv env ⟨[⟨cat, fq, SyncStatus.skipped, none, some "Excluded by pattern"⟩],
      [], [], [(fq, true)]⟩ := by
  refine ⟨?_, rfl, ?_, ?_, ?_⟩
  · intro w hw
    simp at hw
  · intro r hr hst
    rw [List.mem_singleton] at hr
    subst hr
    exact ⟨rfl, h⟩
  · intro l hl
    simp at hl
  · intro r hr
    rw [List.mem_singleton] at hr
    subst hr
    exact fun hst => nomatch hst

theorem SyncInv.checkedOut (env : SyncEnv) (fq : String) :
    SyncInv env ⟨[], [], [], [(fq, false)]⟩ := by
  refine ⟨?_, rfl, ?_, ?_, ?_⟩ <;> intro x hx <;> simp at hx

theorem SyncInv.syncedOut (env : SyncEnv) (cat fq p d : String)
    (h : env.excl fq = false) :
    SyncInv env ⟨[⟨cat, fq, SyncStatus.synced, some p, none⟩], [⟨p, d, fq⟩],
      [], [(fq, false)]⟩ := by
  refine ⟨?_, rfl, ?_, ?_, ?_⟩
  · intro w hw
    rw [List.mem_singleton] at hw
    subst hw
    exact h
  · intro r hr hst
    rw [List.mem_singleton] at hr
    subst hr
    cases hst
  · intro l hl
    simp at hl
  · intro r hr
    rw [List.mem_singleton] at hr
    subst hr
    exact fun hst => nomatch hst

theorem SyncInv.listedOut (env : SyncEnv) (t : String) (sc : Option String)
    (h : ∀ s, sc = some s → env.excl s = false) :
    SyncInv env ⟨[], [], [⟨t, sc⟩], []⟩ := by
  refine ⟨?_, rfl, ?_, ?_, ?_⟩
  · intro w hw; simp at hw
  · intro r hr; simp at hr
  · intro l hl
    rw [List.mem_singleton] at hl
    subst hl
    exact h
  · intro r hr; simp at hr

theorem syncLeafItem_inv (env : SyncEnv) (td db sch cat sub n : String) :
    SyncInv env (syncLeafItem env td db sch cat sub n) := by
  simp only [syncLeafItem]
  by_cases h0 : (n == "") = true
  · rw [if_pos h0]
    exact SyncInv.emptyOut env
  · rw [if_neg h0]
    by_cases h1 : env.excl (db ++ "." ++ sch ++ "." ++ n) = true
    · rw [if_pos h1]
      exact SyncInv.skipOut env cat _ h1
    · rw [if_neg h1]
      have h1' : env.excl (db ++ "." ++ sch ++ "." ++ n) = false := by simpa using h1
      by_cases h2 : (env.ddl cat (db ++ "." ++ sch ++ "." ++ n) == "") = true
      · rw [if_pos h2]
        exact SyncInv.checkedOut env _
      · rw [if_neg h2]
        exact SyncInv.syncedOut env cat _ _ _ h1'

theorem syncLeafCategory_inv (env : SyncEnv) (incl : Bool)
    (td db sch cat sub : String) (hsc : env.excl (db ++ "." ++ sch) = false) :
    SyncInv env (syncLeafCategory env incl td db sch cat sub) := by
  simp only [syncLeafCategory]
  by_cases h : incl = true
  · rw [if_pos h]
    refine SyncInv.app (SyncInv.listedOut env cat _ ?_) (SyncInv.concatOut ?_)
    · intro s hs
      cases hs
      exact hsc
    · intro o ho
      rw [List.mem_map] at ho
      obtain ⟨nm, _, rfl⟩ := ho
      exact syncLeafItem_inv env td db sch cat sub nm
  · rw [if_neg h]
    exact SyncInv.emptyOut env

theorem syncSchemaItem_cats_inv (env : SyncEnv) (flags : SyncFlags)
    (td db s : String) (h1 : env.excl (db ++ "." ++ s) = false) :
    ∀ o ∈ [syncLeafCategory env flags.includeTables td db s "table" "tables",
        syncLeafCategory env flags.includeViews td db s "view" "views",
        syncLeafCategory env flags.includeFunctions td db s "function" "functions",
        syncLeafCategory env flags.includeProcedures td db s "procedure" "procedures",
        syncLeafCategory env flags.includeStages td db s "stage" "stages",
        syncLeafCategory env flags.includeTasks td db s "task" "tasks"],
      SyncInv env o := by
  intro o ho
  simp only [List.mem_cons, List.not_mem_nil, or_false] at ho
  rcases ho with rfl | rfl | rfl | rfl | rfl | rfl <;>
    exact syncLeafCategory_inv env _ td db s _ _ h1

theorem syncSchemaItem_inv (env : SyncEnv) (flags : SyncFlags)
    (td db s : String) : SyncInv env (syncSchemaItem env flags td db s) := by
  simp only [syncSchemaItem]
  by_cases h0 : (s == "") = true
  · rw [if_pos h0]
    exact SyncInv.emptyOut env
  · rw [if_neg h0]
    by_cases h1 : env.excl (db ++ "." ++ s) = true
    · rw [if_pos h1]
      exact SyncInv.skipOut env "schema" _ h1
    · rw [if_neg h1]
      have h1' : env.excl (db ++ "." ++ s) = false := by simpa using h1
      refine SyncInv.app ?_
        (SyncInv.concatOut (syncSchemaItem_cats_inv env flags td db s h1'))
      by_cases h2 : (env.ddl "schema" (db ++ "." ++ s) == "") = true
      · rw [if_pos h2]
        exact SyncInv.checkedOut env _
      · rw [if_neg h2]
        exact SyncInv.syncedOut env "schema" _ _ _ h1'

theorem syncDbItem_inv (env : SyncEnv) (flags : SyncFlags) (td db : String) :
    SyncInv env (syncDbItem env flags td db) := by
  simp only [syncDbItem]
  by_cases h0 : (db == "") = true
  · rw [if_pos h0]
    exact SyncInv.emptyOut env
  · rw [if_neg h0]
    by_cases h1 : env.excl db = true
    · rw [if_pos h1]
      exact SyncInv.skipOut env "database" _ h1
    · rw [if_neg h1]
      have h1' : env.excl db = false := by simpa using h1
      refine SyncInv.app ?_ ?_
      · by_cases h2 : (env.ddl "database" db == "") = true
        · rw [if_pos h2]
          exact SyncInv.checkedOut env _
        · rw [if_neg h2]
          exact SyncInv.syncedOut env "database" _ _ _ h1'
      · by_cases h3 : flags.includeSchemas = true
        · rw [if_pos h3]
          refine SyncInv.app (SyncInv.listedOut env "schema" (some db) ?_)
            (SyncInv.concatOut ?_)
          · intro sc hsc
            cases hsc
            exact h1'
          · intro o ho
            rw [List.mem_map] at ho
            obtain ⟨nm, _, rfl⟩ := ho
            exact syncSchemaItem_inv env flags td db nm
        · rw [if_neg h3]
          exact SyncInv.emptyOut env

theorem syncObjects_inv (env : SyncEnv) (flags : SyncFlags) (targetDir : String) :
    SyncInv env (syncObjects env flags targetDir) := by
  simp only [syncObjects]
  by_cases h : flags.includeDatabases = true
  · rw [if_pos h]
    refine SyncInv.app (SyncInv.listedOut env "database" none ?_) (SyncInv.concatOut ?_)
    · intro s hs
      cases hs
    · intro o ho
      rw [List.mem_map] at ho
      obtain ⟨nm, _, rfl⟩ := ho
      exact syncDbItem_inv env flags targetDir nm
  · rw [if_neg h]
    exact SyncInv.emptyOut env

def syncEnvC : SyncEnv :=
  { excl := fun s => s == "D1.S1.SECRET" || s == "PROD_DB",
    listNames := fun t _ =>
      if t == "database" then ["D1", "PROD_DB"]
      else if t == "schema" then ["S1"]
      else if t == "table" then ["SECRET", "T1"]
      else [],
    ddl := fun _ fq => "CREATE " ++ fq }

def syncFlagsC : SyncFlags :=
  { includeDatabases := true, includeSchemas := true, includeTables := true,
    includeViews := true, includeFunctions := false, includeProcedures := false,
    includeStages := false, includeTasks := false }

/-- C2: during a sync run no file is written for a fully-qualified name the
exclusion checker marks as excluded; every skipped record carries the error
text "Excluded by pattern" and an excluded name, the skipped records
correspond one-to-one and in order to the exclusion checks that returned
true (one record per visited excluded node), every listObjects call has a
non-excluded scope (children of excluded nodes are never enumerated), and
the index skippedCount equals the number of those skip records. -/
theorem sync_respects_exclusions (env : SyncEnv) (flags : SyncFlags) (targetDir : String) :
    (∀ w ∈ (syncObjects env flags targetDir).writes, env.excl w.fqName = false) ∧
    (∀ r ∈ (syncObjects env flags targetDir).results, r.status = SyncStatus.skipped →
        r.error = some "Excluded by pattern" ∧ env.excl r.name = true) ∧
    (((syncObjects env flags targetDir).results.filter
        (fun r => r.status == SyncStatus.skipped)).map (fun r => r.name)
      = ((syncObjects env flags targetDir).checked.filter (fun p => p.2)).map
          (fun p => p.1)) ∧
    (∀ l ∈ (syncObjects env flags targetDir).listed, ∀ s, l.scope = some s →
        env.excl s = false) ∧
    ((buildIndex targetDir (syncObjects env flags targetDir).results).skippedCount
      = ((syncObjects env flags targetDir).checked.filter (fun p => p.2)).length) := by
  obtain ⟨h1, h2, h3, h4, h5⟩ := syncObjects_inv env flags targetDir
  refine ⟨h1, h3, h2, h4, ?_⟩
  have : ((syncObjects env flags targetDir).results.filter
      (fun r => r.status == SyncStatus.skipped)).length
      = (((syncObjects env flags targetDir).results.filter
          (fun r => r.status == SyncStatus.skipped)).map (fun r => r.name)).length := by
    rw [List.length_map]
  rw [buildIndex]
  simp only []
  rw [this, h2, List.length_map]

/-- Witness for C2 on a concrete environment with an excluded table and an
excluded database. -/
theorem sync_respects_exclusions_witness :
    syncEnvC.excl ("D1" : String) = false ∧
    ((⟨"table", "D1.S1.SECRET", SyncStatus.skipped, none,
        some "Excluded by pattern"⟩ : SyncResult).error = some "Excluded by pattern" ∧
      syncEnvC.excl "D1.S1.SECRET" = true) ∧
    syncEnvC.excl "D1.S1" = false ∧
    ((buildIndex "out" (syncObjects syncEnvC syncFlagsC "out").results).skippedCount
      = ((syncObjects syncEnvC syncFlagsC "out").checked.filter (fun p => p.2)).length) :=
  ⟨(sync_respects_exclusions syncEnvC syncFlagsC "out").1
      ⟨"out/D1/_database.sql", "CREATE D1", "D1"⟩ (by decide),
   (sync_respects_exclusions syncEnvC syncFlagsC "out").2.1
      ⟨"table", "D1.S1.SECRET", SyncStatus.skipped, none, some "Excluded by pattern"⟩
      (by decide) rfl,
   (sync_respects_exclusions syncEnvC syncFlagsC "out").2.2.2.1
      ⟨"table", some "D1.S1"⟩ (by decide) "D1.S1" rfl,
   (sync_respects_exclusions syncEnvC syncFlagsC "out").2.2.2.2⟩

/-- C10: a completed walk never records a SyncResult with error status, so
the errorCount written to the index is always 0. -/
theorem sync_no_error_results (env : SyncEnv) (flags : SyncFlags) (targetDir : String) :
    (∀ r ∈ (syncObjects env flags targetDir).results, r.status ≠ SyncStatus.error) ∧
    (buildIndex targetDir (syncObjects env flags targetDir).results).errorCount = 0 := by
  obtain ⟨_, _, _, _, h5⟩ := syncObjects_inv env flags targetDir
  refine ⟨h5, ?_⟩
  rw [buildIndex]
  simp only []
  rw [List.length_eq_zero, List.filter_eq_nil_iff]
  intro r hr
  simp only [beq_iff_eq]
  exact h5 r hr

/-- Witness for C10 on the concrete environment. -/
theorem sync_no_error_results_witness :
    ((⟨"database", "D1", SyncStatus.synced, some "out/D1/_database.sql",
        none⟩ : SyncResult).status ≠ SyncStatus.error) ∧
    (buildIndex "out" (syncObjects syncEnvC syncFlagsC "out").results).errorCount = 0 :=
  ⟨(sync_no_error_results syncEnvC syncFlagsC "out").1
      ⟨"database", "D1", SyncStatus.synced, some "out/D1/_database.sql", none⟩ (by decide),
   (sync_no_error_results syncEnvC syncFlagsC "out").2⟩

end SnowProxy
